import Mathlib

/-!
Verification of the `aws-key-rotator` key-rotation core
(`src/keyRotation/keyRotator.ts`) against its natural-language
specification.

The TypeScript `KeyRotator` class drives one rotation run for an IAM
user: it lists the existing access keys, creates a fresh key, hands it to
an injected `NewKeyHandler`, and then deletes the listed keys.  Every
error raised after listing falls into a single `catch` that deletes the
listed keys whose status is `Inactive` and then re-rejects.

The embedding below mirrors that promise chain as a deterministic Lean
function.  The remote IAM service and the injected handler are modelled
by an `Env` of outcome oracles: whether `listAccessKeys` succeeds,
whether `createAccessKey` succeeds given the current number of keys held,
whether the handler resolves, whether `deleteAccessKey` succeeds for a
given key id, and the id the service assigns to a newly created key.
The remote key set is a list of key metadata.  Besides the final state
and the settled result, the run records a trace: how many creation calls
were issued, how many handler invocations happened, and the ids of every
deletion request that was issued (in issue order).
-/

namespace AwsKeyRotator

/-- Modelled from the spec: the repository's `keyStatus.ts` (exporting the
`ACTIVE`/`INACTIVE` status constants) is not present under `src/`; per the
spec's data model a key status is one of `ACTIVE` or `INACTIVE`. -/
inductive KeyStatus where
  | active
  | inactive
deriving DecidableEq, Repr

/-- Metadata of an existing access key, as returned by `listAccessKeys`:
the key id (modelled as a natural number) and its status
(`AccessKeyMetadata` in the source). -/
structure AccessKeyMetadata where
  accessKeyId : Nat
  status : KeyStatus
deriving DecidableEq, Repr

/-- Outcome oracles for the remote IAM service and the injected
`NewKeyHandler`: whether listing succeeds, whether key creation succeeds
given the number of keys the identity currently holds, whether the
handler resolves, whether deletion of a given key id succeeds, and the id
assigned to a newly created key. -/
structure Env where
  listOk : Bool
  createOk : Nat → Bool
  handlerOk : Bool
  deleteOk : Nat → Bool
  newId : Nat

/-- The error surfaced by a failed run: a listing failure, a creation
failure, a handler rejection, or the failure of the deletion request for
a given key id. -/
inductive RotErr where
  | listErr
  | createErr
  | handlerErr
  | deleteErr (id : Nat)
deriving DecidableEq, Repr

deriving instance DecidableEq for Except

/-- Result of one `deleteKeys` batch: the settled result of the
`Promise.all`, the remote key set afterwards, and the ids of the deletion
requests that were issued. -/
structure DeleteOutcome where
  result : Except RotErr Unit
  state : List AccessKeyMetadata
  issued : List Nat
deriving Repr

/-- Result of one `rotateKeys` run: the settled result, the remote key
set afterwards, the number of `createAccessKey` calls made, the number of
handler invocations, and the ids of every deletion request issued, in
issue order. -/
structure RunResult where
  result : Except RotErr Unit
  finalKeys : List AccessKeyMetadata
  createCalls : Nat
  handlerCalls : Nat
  issuedDeletes : List Nat
deriving Repr

/-- The subset of `keys` that `deleteKeys` deletes: the keys passing the
filter when one is supplied, otherwise all of them.  Mirrors the
`keysToDelete` local of `deleteKeys` in the source. -/
def keysToDelete (keys : List AccessKeyMetadata)
    (filt : Option (AccessKeyMetadata → Bool)) : List AccessKeyMetadata :=
  match filt with
  | some f => keys.filter f
  | none => keys

/-- The `deleteKeys` method: compute `keysToDelete`, issue one deletion
request per key in it (all requests are issued; `Promise.all` does not
cancel the rest when one rejects), remove from the remote state exactly
the keys whose deletion succeeded, and settle with the first rejection if
any deletion failed, otherwise with success. -/
def deleteKeys (env : Env) (keys : List AccessKeyMetadata)
    (filt : Option (AccessKeyMetadata → Bool))
    (st : List AccessKeyMetadata) : DeleteOutcome :=
  let toDelete := keysToDelete keys filt
  let issued := toDelete.map (fun k => k.accessKeyId)
  let succeeded := issued.filter (fun i => env.deleteOk i)
  let st' := st.filter (fun k => !(succeeded.contains k.accessKeyId))
  let result := match toDelete.find? (fun k => !(env.deleteOk k.accessKeyId)) with
    | some k => Except.error (RotErr.deleteErr k.accessKeyId)
    | none => Except.ok ()
  ⟨result, st', issued⟩

/-- The `catch` branch of `performKeyRotation`: delete the listed keys
whose status is `Inactive`, then re-reject with the original error `e`
when that batch succeeds, and with the batch's own error when it fails
(`.then(() => Promise.reject(err))` is skipped on rejection).  The trace
accumulated before entering the catch is threaded through. -/
def selfHeal (env : Env) (keys : List AccessKeyMetadata) (e : RotErr)
    (cc hc : Nat) (issued0 : List Nat)
    (st : List AccessKeyMetadata) : RunResult :=
  let d := deleteKeys env keys (some (fun k => k.status == KeyStatus.inactive)) st
  match d.result with
  | Except.ok _ => ⟨Except.error e, d.state, cc, hc, issued0 ++ d.issued⟩
  | Except.error e2 => ⟨Except.error e2, d.state, cc, hc, issued0 ++ d.issued⟩

/-- The `performKeyRotation` method: create a new key (the service
decides by the current key count), invoke the handler on it, and delete
the listed keys; `handleNewKey` deletes the new key when the handler
rejects; every rejection reaching the outer `catch` triggers `selfHeal`. -/
def performKeyRotation (env : Env) (keys st : List AccessKeyMetadata) : RunResult :=
  if env.createOk st.length then
    let newKey : AccessKeyMetadata := ⟨env.newId, KeyStatus.active⟩
    let st1 := st ++ [newKey]
    if env.handlerOk then
      let d := deleteKeys env keys none st1
      match d.result with
      | Except.ok _ => ⟨Except.ok (), d.state, 1, 1, d.issued⟩
      | Except.error e => selfHeal env keys e 1 1 d.issued d.state
    else
      if env.deleteOk env.newId then
        let st2 := st1.filter (fun k => k.accessKeyId != env.newId)
        selfHeal env keys RotErr.handlerErr 1 1 [env.newId] st2
      else
        selfHeal env keys (RotErr.deleteErr env.newId) 1 1 [env.newId] st1
  else
    selfHeal env keys RotErr.createErr 1 0 [] st

/-- The public `rotateKeys` method: list the existing keys (the listed
set is exactly the remote key set at the start of the run) and run
`performKeyRotation` on them; a listing failure rejects with no mutation
and no further calls. -/
def rotateKeys (env : Env) (st : List AccessKeyMetadata) : RunResult :=
  if env.listOk then performKeyRotation env st st
  else ⟨Except.error RotErr.listErr, st, 0, 0, []⟩

/-- Ids of the deletion requests of a `deleteKeys` batch that succeed. -/
def succeededIds (env : Env) (toDelete : List AccessKeyMetadata) : List Nat :=
  (toDelete.map (fun k => k.accessKeyId)).filter (fun i => env.deleteOk i)

/-- The remote service enforces its 2-key cap: creation is rejected
whenever the identity already holds two or more keys. -/
def capped (env : Env) : Prop := ∀ n, 2 ≤ n → env.createOk n = false

/-- The id the service would assign to a newly created key does not
collide with any key in the given set (AWS access-key ids are unique). -/
def freshFor (env : Env) (st : List AccessKeyMetadata) : Prop :=
  ∀ k ∈ st, k.accessKeyId ≠ env.newId

/-- The key ids in the given set are pairwise distinct. -/
def nodupIds (st : List AccessKeyMetadata) : Prop :=
  (st.map (fun k => k.accessKeyId)).Nodup

theorem deleteKeys_issued (env : Env) (K : List AccessKeyMetadata)
    (filt : Option (AccessKeyMetadata → Bool)) (st : List AccessKeyMetadata) :
    (deleteKeys env K filt st).issued
      = (keysToDelete K filt).map (fun k => k.accessKeyId) := rfl

theorem deleteKeys_state_eq (env : Env) (K : List AccessKeyMetadata)
    (filt : Option (AccessKeyMetadata → Bool)) (st : List AccessKeyMetadata) :
    (deleteKeys env K filt st).state
      = st.filter
          (fun k => !((succeededIds env (keysToDelete K filt)).contains k.accessKeyId)) := rfl

theorem mem_succeededIds (env : Env) (toDelete : List AccessKeyMetadata) (i : Nat) :
    i ∈ succeededIds env toDelete
      ↔ (∃ k ∈ toDelete, k.accessKeyId = i) ∧ env.deleteOk i = true := by
  simp [succeededIds]

theorem deleteKeys_result_ok_iff (env : Env) (K : List AccessKeyMetadata)
    (filt : Option (AccessKeyMetadata → Bool)) (st : List AccessKeyMetadata) :
    (deleteKeys env K filt st).result = Except.ok ()
      ↔ ∀ k ∈ keysToDelete K filt, env.deleteOk k.accessKeyId = true := by
  simp only [deleteKeys]
  constructor
  · intro h k hk
    by_contra hbad
    rcases hfind : (keysToDelete K filt).find? (fun k => !(env.deleteOk k.accessKeyId)) with _ | k0
    · rw [List.find?_eq_none] at hfind
      exact hfind k hk (by simp [hbad])
    · simp [hfind] at h
  · intro h
    have hnone : (keysToDelete K filt).find? (fun k => !(env.deleteOk k.accessKeyId)) = none := by
      rw [List.find?_eq_none]
      intro k hk
      simp [h k hk]
    simp [hnone]

theorem deleteKeys_mem_state (env : Env) (K : List AccessKeyMetadata)
    (filt : Option (AccessKeyMetadata → Bool)) (st : List AccessKeyMetadata)
    (k : AccessKeyMetadata) :
    k ∈ (deleteKeys env K filt st).state
      ↔ k ∈ st ∧ ¬(k.accessKeyId ∈ succeededIds env (keysToDelete K filt)) := by
  rw [deleteKeys_state_eq, List.mem_filter]
  simp

/-- A key in the starting state whose id is not among the issued deletions
is untouched by a `deleteKeys` batch. -/
theorem deleteKeys_preserves_unissued (env : Env) (K : List AccessKeyMetadata)
    (filt : Option (AccessKeyMetadata → Bool)) (st : List AccessKeyMetadata)
    (k : AccessKeyMetadata) (hk : k ∈ st)
    (hout : ¬(k.accessKeyId ∈ (deleteKeys env K filt st).issued)) :
    k ∈ (deleteKeys env K filt st).state := by
  rw [deleteKeys_mem_state]
  refine ⟨hk, fun hmem => hout ?_⟩
  rw [mem_succeededIds] at hmem
  rw [deleteKeys_issued]
  rcases hmem.1 with ⟨k', hk', hid⟩
  exact List.mem_map.mpr ⟨k', hk', hid⟩

/-- C5: for every key list, predicate and state, `deleteKeys` issues
deletions for exactly the keys matching the predicate (all of the list
when no predicate is supplied), touches no key outside that subset, and
succeeds when every individual deletion succeeds. -/
theorem deleteKeys_filter_correct (env : Env) (K : List AccessKeyMetadata)
    (filt : Option (AccessKeyMetadata → Bool)) (st : List AccessKeyMetadata)
    (hok : ∀ k ∈ keysToDelete K filt, env.deleteOk k.accessKeyId = true) :
    (deleteKeys env K filt st).issued
        = (keysToDelete K filt).map (fun k => k.accessKeyId)
    ∧ (∀ f, keysToDelete K (some f) = K.filter f)
    ∧ keysToDelete K none = K
    ∧ (∀ k ∈ st, ¬(k.accessKeyId ∈ (deleteKeys env K filt st).issued)
        → k ∈ (deleteKeys env K filt st).state)
    ∧ (deleteKeys env K filt st).result = Except.ok () := by
  refine ⟨deleteKeys_issued env K filt st, fun f => rfl, rfl, ?_, ?_⟩
  · intro k hk hout
    exact deleteKeys_preserves_unissued env K filt st k hk hout
  · exact (deleteKeys_result_ok_iff env K filt st).mpr hok

/-- Witness for C5 at a concrete batch: two keys, the inactive-status
filter selects exactly the first, the unmatched key survives, and the
batch succeeds. -/
theorem deleteKeys_filter_correct_witness :
    (deleteKeys ⟨true, fun _ => true, true, fun _ => true, 9⟩
        [⟨1, KeyStatus.inactive⟩, ⟨2, KeyStatus.active⟩]
        (some (fun k => k.status == KeyStatus.inactive))
        [⟨1, KeyStatus.inactive⟩, ⟨2, KeyStatus.active⟩]).issued = [1]
    ∧ (⟨2, KeyStatus.active⟩ : AccessKeyMetadata)
        ∈ (deleteKeys ⟨true, fun _ => true, true, fun _ => true, 9⟩
            [⟨1, KeyStatus.inactive⟩, ⟨2, KeyStatus.active⟩]
            (some (fun k => k.status == KeyStatus.inactive))
            [⟨1, KeyStatus.inactive⟩, ⟨2, KeyStatus.active⟩]).state
    ∧ (deleteKeys ⟨true, fun _ => true, true, fun _ => true, 9⟩
        [⟨1, KeyStatus.inactive⟩, ⟨2, KeyStatus.active⟩]
        (some (fun k => k.status == KeyStatus.inactive))
        [⟨1, KeyStatus.inactive⟩, ⟨2, KeyStatus.active⟩]).result = Except.ok () := by
  have h := deleteKeys_filter_correct ⟨true, fun _ => true, true, fun _ => true, 9⟩
    [⟨1, KeyStatus.inactive⟩, ⟨2, KeyStatus.active⟩]
    (some (fun k => k.status == KeyStatus.inactive))
    [⟨1, KeyStatus.inactive⟩, ⟨2, KeyStatus.active⟩]
    (by decide)
  refine ⟨by decide, ?_, h.2.2.2.2⟩
  exact h.2.2.2.1 ⟨2, KeyStatus.active⟩ (by decide) (by decide)

/-- A `deleteKeys` batch with at least one failing deletion settles with
a deletion error for a key whose deletion failed. -/
theorem deleteKeys_error_of_failed_delete (env : Env) (K : List AccessKeyMetadata)
    (filt : Option (AccessKeyMetadata → Bool)) (st : List AccessKeyMetadata)
    (hbad : ∃ k ∈ keysToDelete K filt, env.deleteOk k.accessKeyId = false) :
    ∃ i, (deleteKeys env K filt st).result = Except.error (RotErr.deleteErr i)
      ∧ env.deleteOk i = false := by
  rcases hbad with ⟨k, hk, hno⟩
  have hsome : ((keysToDelete K filt).find? (fun k => !(env.deleteOk k.accessKeyId))).isSome := by
    rw [List.find?_isSome]
    exact ⟨k, hk, by simp [hno]⟩
  rcases hfind : (keysToDelete K filt).find? (fun k => !(env.deleteOk k.accessKeyId)) with _ | k0
  · rw [hfind] at hsome
    simp at hsome
  · have hp := List.find?_some hfind
    simp at hp
    exact ⟨k0.accessKeyId, by simp [deleteKeys, hfind], hp⟩

/-- C6: whenever at least one individual deletion fails, the `deleteKeys`
batch fails (with a deletion error for a key whose deletion failed), yet
every key in the batch whose own deletion succeeded is still removed from
the state — one failure neither undoes nor prevents the other deletions. -/
theorem deleteKeys_partial_failure (env : Env) (K : List AccessKeyMetadata)
    (filt : Option (AccessKeyMetadata → Bool)) (st : List AccessKeyMetadata)
    (hbad : ∃ k ∈ keysToDelete K filt, env.deleteOk k.accessKeyId = false) :
    (∃ i, (deleteKeys env K filt st).result = Except.error (RotErr.deleteErr i)
        ∧ env.deleteOk i = false)
    ∧ ∀ k ∈ keysToDelete K filt, env.deleteOk k.accessKeyId = true →
        ∀ k' ∈ (deleteKeys env K filt st).state, k'.accessKeyId ≠ k.accessKeyId := by
  constructor
  · exact deleteKeys_error_of_failed_delete env K filt st hbad
  · intro k hk hokk k' hk' heq
    rw [deleteKeys_mem_state] at hk'
    exact hk'.2 ((mem_succeededIds env (keysToDelete K filt) k'.accessKeyId).mpr
      ⟨⟨k, hk, heq.symm⟩, heq ▸ hokk⟩)

/-- Witness for C6 at a concrete batch: of two keys, deletion of id 1
fails and deletion of id 2 succeeds; the batch errors on id 1 while id 2
is nevertheless gone from the state. -/
theorem deleteKeys_partial_failure_witness :
    (deleteKeys ⟨true, fun _ => true, true, fun i => i != 1, 9⟩
        [⟨1, KeyStatus.inactive⟩, ⟨2, KeyStatus.active⟩] none
        [⟨1, KeyStatus.inactive⟩, ⟨2, KeyStatus.active⟩]).result
      = Except.error (RotErr.deleteErr 1)
    ∧ ∀ k' ∈ (deleteKeys ⟨true, fun _ => true, true, fun i => i != 1, 9⟩
        [⟨1, KeyStatus.inactive⟩, ⟨2, KeyStatus.active⟩] none
        [⟨1, KeyStatus.inactive⟩, ⟨2, KeyStatus.active⟩]).state,
        k'.accessKeyId ≠ 2 := by
  have h := deleteKeys_partial_failure ⟨true, fun _ => true, true, fun i => i != 1, 9⟩
    [⟨1, KeyStatus.inactive⟩, ⟨2, KeyStatus.active⟩] none
    [⟨1, KeyStatus.inactive⟩, ⟨2, KeyStatus.active⟩]
    ⟨⟨1, KeyStatus.inactive⟩, by decide, by decide⟩
  refine ⟨by decide, ?_⟩
  exact h.2 ⟨2, KeyStatus.active⟩ (by decide) (by decide)

theorem selfHeal_result_ne_ok (env : Env) (keys : List AccessKeyMetadata)
    (e : RotErr) (cc hc : Nat) (issued0 : List Nat) (st : List AccessKeyMetadata) :
    (selfHeal env keys e cc hc issued0 st).result ≠ Except.ok () := by
  unfold selfHeal
  rcases h : (deleteKeys env keys (some (fun k => k.status == KeyStatus.inactive)) st).result
    with _ | _ <;> simp [h]

theorem selfHeal_finalKeys (env : Env) (keys : List AccessKeyMetadata)
    (e : RotErr) (cc hc : Nat) (issued0 : List Nat) (st : List AccessKeyMetadata) :
    (selfHeal env keys e cc hc issued0 st).finalKeys
      = (deleteKeys env keys (some (fun k => k.status == KeyStatus.inactive)) st).state := by
  unfold selfHeal
  rcases h : (deleteKeys env keys (some (fun k => k.status == KeyStatus.inactive)) st).result
    with _ | _ <;> simp [h]

theorem selfHeal_createCalls (env : Env) (keys : List AccessKeyMetadata)
    (e : RotErr) (cc hc : Nat) (issued0 : List Nat) (st : List AccessKeyMetadata) :
    (selfHeal env keys e cc hc issued0 st).createCalls = cc := by
  unfold selfHeal
  rcases h : (deleteKeys env keys (some (fun k => k.status == KeyStatus.inactive)) st).result
    with _ | _ <;> simp [h]

theorem selfHeal_handlerCalls (env : Env) (keys : List AccessKeyMetadata)
    (e : RotErr) (cc hc : Nat) (issued0 : List Nat) (st : List AccessKeyMetadata) :
    (selfHeal env keys e cc hc issued0 st).handlerCalls = hc := by
  unfold selfHeal
  rcases h : (deleteKeys env keys (some (fun k => k.status == KeyStatus.inactive)) st).result
    with _ | _ <;> simp [h]

theorem selfHeal_issuedDeletes (env : Env) (keys : List AccessKeyMetadata)
    (e : RotErr) (cc hc : Nat) (issued0 : List Nat) (st : List AccessKeyMetadata) :
    (selfHeal env keys e cc hc issued0 st).issuedDeletes
      = issued0 ++ (keys.filter (fun k => k.status == KeyStatus.inactive)).map
          (fun k => k.accessKeyId) := by
  unfold selfHeal
  rcases h : (deleteKeys env keys (some (fun k => k.status == KeyStatus.inactive)) st).result
    with _ | _ <;> simp [h, deleteKeys_issued, keysToDelete]

theorem selfHeal_result_of_deletes_ok (env : Env) (keys : List AccessKeyMetadata)
    (e : RotErr) (cc hc : Nat) (issued0 : List Nat) (st : List AccessKeyMetadata)
    (hok : ∀ k ∈ keys.filter (fun k => k.status == KeyStatus.inactive),
      env.deleteOk k.accessKeyId = true) :
    (selfHeal env keys e cc hc issued0 st).result = Except.error e := by
  unfold selfHeal
  have h := (deleteKeys_result_ok_iff env keys
    (some (fun k => k.status == KeyStatus.inactive)) st).mpr hok
  simp [h]

/-- A key of the current state survives the self-heal pass whenever its
id differs from the id of every INACTIVE key of the listed set; in
particular (given pairwise-distinct listed ids) every listed ACTIVE key
survives. -/
theorem selfHeal_preserves (env : Env) (keys : List AccessKeyMetadata)
    (e : RotErr) (cc hc : Nat) (issued0 : List Nat) (st : List AccessKeyMetadata)
    (k : AccessKeyMetadata) (hk : k ∈ st)
    (hid : ∀ k' ∈ keys, k'.status = KeyStatus.inactive → k'.accessKeyId ≠ k.accessKeyId) :
    k ∈ (selfHeal env keys e cc hc issued0 st).finalKeys := by
  rw [selfHeal_finalKeys, deleteKeys_mem_state]
  refine ⟨hk, fun hmem => ?_⟩
  rw [mem_succeededIds] at hmem
  rcases hmem.1 with ⟨k', hk', hideq⟩
  rw [keysToDelete, List.mem_filter] at hk'
  exact hid k' hk'.1 (by simpa using hk'.2) hideq

/-- Every listed ACTIVE key of the current state survives the self-heal
pass when the listed ids are pairwise distinct. -/
theorem selfHeal_preserves_active (env : Env) (keys : List AccessKeyMetadata)
    (e : RotErr) (cc hc : Nat) (issued0 : List Nat) (st : List AccessKeyMetadata)
    (hnd : nodupIds keys)
    (k : AccessKeyMetadata) (hk : k ∈ st) (hkl : k ∈ keys)
    (hact : k.status = KeyStatus.active) :
    k ∈ (selfHeal env keys e cc hc issued0 st).finalKeys := by
  refine selfHeal_preserves env keys e cc hc issued0 st k hk ?_
  intro k' hk' hin heq
  have : k' = k := List.inj_on_of_nodup_map hnd hk' hkl heq
  rw [this, hact] at hin
  exact KeyStatus.noConfusion hin

/-- A run settles successfully exactly when listing, creation, the
handler, and every deletion of a listed key succeed. -/
theorem rotateKeys_result_ok_iff (env : Env) (st : List AccessKeyMetadata) :
    (rotateKeys env st).result = Except.ok ()
      ↔ env.listOk = true ∧ env.createOk st.length = true ∧ env.handlerOk = true
        ∧ ∀ k ∈ st, env.deleteOk k.accessKeyId = true := by
  unfold rotateKeys performKeyRotation
  by_cases hl : env.listOk = true
  · simp only [hl, if_true, true_and]
    by_cases hc : env.createOk st.length = true
    · simp only [hc, if_true, true_and]
      by_cases hh : env.handlerOk = true
      · simp only [hh, if_true, true_and]
        rcases hd : (deleteKeys env st none (st ++ [⟨env.newId, KeyStatus.active⟩])).result
          with e | u
        · simp only [hd]
          constructor
          · intro h
            exact absurd h (selfHeal_result_ne_ok env st e 1 1 _ _)
          · intro h
            have := (deleteKeys_result_ok_iff env st none
              (st ++ [⟨env.newId, KeyStatus.active⟩])).mpr (by simpa [keysToDelete] using h)
            rw [hd] at this
            exact absurd this (by simp)
        · simp only [hd]
          have := (deleteKeys_result_ok_iff env st none
            (st ++ [⟨env.newId, KeyStatus.active⟩])).mp (by rw [hd])
          simp only [keysToDelete] at this
          simpa using this
      · simp only [hh, if_false]
        constructor
        · intro h
          by_cases hdn : env.deleteOk env.newId = true <;> simp only [hdn, if_true, if_false] at h
          · exact absurd h (selfHeal_result_ne_ok env st RotErr.handlerErr 1 1 _ _)
          · exact absurd h (selfHeal_result_ne_ok env st (RotErr.deleteErr env.newId) 1 1 _ _)
        · intro h
          exact absurd h.1 Bool.false_ne_true
    · simp only [hc, if_false]
      constructor
      · intro h
        exact absurd h (selfHeal_result_ne_ok env st RotErr.createErr 1 0 [] st)
      · intro h
        exact absurd h.1 Bool.false_ne_true
  · simp only [hl, if_false]
    constructor
    · intro h
      exact absurd h (by simp)
    · intro h
      exact absurd h.1 Bool.false_ne_true

/-- After a successful run the remote key set is exactly the one newly
created, ACTIVE key. -/
theorem rotateKeys_ok_finalKeys (env : Env) (st : List AccessKeyMetadata)
    (hfresh : freshFor env st)
    (hok : (rotateKeys env st).result = Except.ok ()) :
    (rotateKeys env st).finalKeys = [⟨env.newId, KeyStatus.active⟩] := by
  obtain ⟨hl, hc, hh, hd⟩ := (rotateKeys_result_ok_iff env st).mp hok
  have hdres : (deleteKeys env st none (st ++ [⟨env.newId, KeyStatus.active⟩])).result
      = Except.ok () :=
    (deleteKeys_result_ok_iff env st none _).mpr (by simpa [keysToDelete] using hd)
  unfold rotateKeys performKeyRotation
  simp only [hl, hc, hh, if_true]
  simp only [hdres]
  rw [deleteKeys_state_eq]
  have hsucc : succeededIds env (keysToDelete st none) = st.map (fun k => k.accessKeyId) := by
    rw [keysToDelete, succeededIds]
    exact List.filter_eq_self.mpr (by simpa using hd)
  rw [hsucc, List.filter_append]
  have h1 : st.filter
      (fun k => !((st.map (fun k => k.accessKeyId)).contains k.accessKeyId)) = [] := by
    rw [List.filter_eq_nil_iff]
    intro k hk
    simp
    exact ⟨k, hk, rfl⟩
  have h2 : ([(⟨env.newId, KeyStatus.active⟩ : AccessKeyMetadata)]).filter
      (fun k => !((st.map (fun k => k.accessKeyId)).contains k.accessKeyId))
      = [⟨env.newId, KeyStatus.active⟩] := by
    rw [List.filter_eq_self]
    intro k hk
    simp only [List.mem_singleton] at hk
    subst hk
    simp
    intro k' hk' heq
    exact hfresh k' hk' heq
  rw [h1, h2]
  rfl

theorem rotateKeys_eq_of_list_failure (env : Env) (st : List AccessKeyMetadata)
    (hl : env.listOk = false) :
    rotateKeys env st = ⟨Except.error RotErr.listErr, st, 0, 0, []⟩ := by
  unfold rotateKeys
  simp [hl]

theorem rotateKeys_eq_of_create_failure (env : Env) (st : List AccessKeyMetadata)
    (hl : env.listOk = true) (hcf : env.createOk st.length = false) :
    rotateKeys env st = selfHeal env st RotErr.createErr 1 0 [] st := by
  unfold rotateKeys performKeyRotation
  simp [hl, hcf]

theorem rotateKeys_eq_of_handler_failure (env : Env) (st : List AccessKeyMetadata)
    (hl : env.listOk = true) (hc : env.createOk st.length = true)
    (hh : env.handlerOk = false) (hdn : env.deleteOk env.newId = true) :
    rotateKeys env st
      = selfHeal env st RotErr.handlerErr 1 1 [env.newId]
          ((st ++ [(⟨env.newId, KeyStatus.active⟩ : AccessKeyMetadata)]).filter
            (fun k => k.accessKeyId != env.newId)) := by
  unfold rotateKeys performKeyRotation
  simp [hl, hc, hh, hdn]

theorem rotateKeys_eq_of_handler_failure_delete_failure (env : Env)
    (st : List AccessKeyMetadata)
    (hl : env.listOk = true) (hc : env.createOk st.length = true)
    (hh : env.handlerOk = false) (hdn : env.deleteOk env.newId = false) :
    rotateKeys env st
      = selfHeal env st (RotErr.deleteErr env.newId) 1 1 [env.newId]
          (st ++ [⟨env.newId, KeyStatus.active⟩]) := by
  unfold rotateKeys performKeyRotation
  simp [hl, hc, hh, hdn]

theorem rotateKeys_eq_of_batch_ok (env : Env) (st : List AccessKeyMetadata)
    (hl : env.listOk = true) (hc : env.createOk st.length = true)
    (hh : env.handlerOk = true)
    (hres : (deleteKeys env st none (st ++ [⟨env.newId, KeyStatus.active⟩])).result
      = Except.ok ()) :
    rotateKeys env st
      = ⟨Except.ok (),
          (deleteKeys env st none (st ++ [⟨env.newId, KeyStatus.active⟩])).state, 1, 1,
          (deleteKeys env st none (st ++ [⟨env.newId, KeyStatus.active⟩])).issued⟩ := by
  unfold rotateKeys performKeyRotation
  simp [hl, hc, hh, hres]

theorem rotateKeys_eq_of_batch_error (env : Env) (st : List AccessKeyMetadata)
    (e : RotErr)
    (hl : env.listOk = true) (hc : env.createOk st.length = true)
    (hh : env.handlerOk = true)
    (hres : (deleteKeys env st none (st ++ [⟨env.newId, KeyStatus.active⟩])).result
      = Except.error e) :
    rotateKeys env st
      = selfHeal env st e 1 1
          (deleteKeys env st none (st ++ [⟨env.newId, KeyStatus.active⟩])).issued
          (deleteKeys env st none (st ++ [⟨env.newId, KeyStatus.active⟩])).state := by
  unfold rotateKeys performKeyRotation
  simp [hl, hc, hh, hres]

theorem selfHeal_result_of_batch_error (env : Env) (keys : List AccessKeyMetadata)
    (e e2 : RotErr) (cc hc : Nat) (issued0 : List Nat) (st : List AccessKeyMetadata)
    (h : (deleteKeys env keys (some (fun k => k.status == KeyStatus.inactive)) st).result
      = Except.error e2) :
    (selfHeal env keys e cc hc issued0 st).result = Except.error e2 := by
  unfold selfHeal
  simp [h]

/-- C1: for every pre-existing key set (with a service-assigned fresh
id), if `rotateKeys` settles successfully then the identity's key set
afterwards is exactly the one ACTIVE key created during this run — in
particular no key listed at step 1 remains; and with zero existing keys
(and a listing, creation and handler that accept) the run succeeds and
ends in that state. -/
theorem rotateKeys_success_postcondition (env : Env) (st : List AccessKeyMetadata)
    (hfresh : freshFor env st) :
    ((rotateKeys env st).result = Except.ok ()
      → (rotateKeys env st).finalKeys = [⟨env.newId, KeyStatus.active⟩]
        ∧ ∀ k ∈ st, ¬ k ∈ (rotateKeys env st).finalKeys)
    ∧ (st = [] → env.listOk = true → env.createOk 0 = true → env.handlerOk = true
      → (rotateKeys env st).result = Except.ok ()
        ∧ (rotateKeys env st).finalKeys = [⟨env.newId, KeyStatus.active⟩]) := by
  constructor
  · intro hok
    have hfin := rotateKeys_ok_finalKeys env st hfresh hok
    refine ⟨hfin, fun k hk hmem => ?_⟩
    rw [hfin, List.mem_singleton] at hmem
    exact hfresh k hk (by rw [hmem])
  · intro hnil hl hc hh
    subst hnil
    have hok : (rotateKeys env []).result = Except.ok () :=
      (rotateKeys_result_ok_iff env []).mpr ⟨hl, by simpa using hc, hh, by simp⟩
    exact ⟨hok, rotateKeys_ok_finalKeys env [] hfresh hok⟩

/-- Witness for C1: a successful rotation of a single ACTIVE key ends
with exactly the new ACTIVE key, and a rotation from zero keys
succeeds. -/
theorem rotateKeys_success_postcondition_witness :
    (rotateKeys ⟨true, fun n => decide (n < 2), true, fun _ => true, 7⟩
        [⟨1, KeyStatus.active⟩]).finalKeys = [⟨7, KeyStatus.active⟩]
    ∧ (rotateKeys ⟨true, fun n => decide (n < 2), true, fun _ => true, 7⟩ []).result
        = Except.ok () :=
  ⟨((rotateKeys_success_postcondition ⟨true, fun n => decide (n < 2), true, fun _ => true, 7⟩
      [⟨1, KeyStatus.active⟩] (by intro k hk; fin_cases hk; decide)).1 (by decide)).1,
    ((rotateKeys_success_postcondition ⟨true, fun n => decide (n < 2), true, fun _ => true, 7⟩
      [] (by intro k hk; exact absurd hk (by simp))).2 rfl rfl (by decide) rfl).1⟩

/-- C2 as written is false on this code: after the self-heal deletion of
the INACTIVE listed keys, the run does not retry key creation — exactly
one `createAccessKey` call is made in a run whose first creation call
failed (the claim demands a second one). -/
theorem selfHeal_no_retry_cex :
    ((⟨true, fun _ => false, true, fun _ => true, 7⟩ : Env).createOk
        ([(⟨1, KeyStatus.inactive⟩ : AccessKeyMetadata)]).length = false)
    ∧ (rotateKeys ⟨true, fun _ => false, true, fun _ => true, 7⟩
        [⟨1, KeyStatus.inactive⟩]).issuedDeletes = [1]
    ∧ ¬((rotateKeys ⟨true, fun _ => false, true, fun _ => true, 7⟩
        [⟨1, KeyStatus.inactive⟩]).createCalls = 2) := by decide

/-- C2 (amended): if the first key-creation call fails then the Rotator
issues deletions for exactly the listed keys whose status is INACTIVE,
never invokes the handler, makes no second creation call (creation is
attempted exactly once per run, so self-heal cannot recurse), rejects
with the original creation error when those deletions succeed, and
deletes no ACTIVE listed key. -/
theorem selfHeal_on_create_failure (env : Env) (st : List AccessKeyMetadata)
    (hl : env.listOk = true) (hcf : env.createOk st.length = false)
    (hnd : nodupIds st) :
    (rotateKeys env st).issuedDeletes
        = (st.filter (fun k => k.status == KeyStatus.inactive)).map
            (fun k => k.accessKeyId)
    ∧ (rotateKeys env st).createCalls = 1
    ∧ (rotateKeys env st).handlerCalls = 0
    ∧ ((∀ k ∈ st.filter (fun k => k.status == KeyStatus.inactive),
          env.deleteOk k.accessKeyId = true)
        → (rotateKeys env st).result = Except.error RotErr.createErr)
    ∧ ∀ k ∈ st, k.status = KeyStatus.active → k ∈ (rotateKeys env st).finalKeys := by
  rw [rotateKeys_eq_of_create_failure env st hl hcf]
  refine ⟨?_, selfHeal_createCalls env st _ 1 0 [] st,
    selfHeal_handlerCalls env st _ 1 0 [] st, ?_, ?_⟩
  · rw [selfHeal_issuedDeletes]
    simp
  · intro hok
    exact selfHeal_result_of_deletes_ok env st RotErr.createErr 1 0 [] st hok
  · intro k hk hact
    exact selfHeal_preserves_active env st RotErr.createErr 1 0 [] st hnd k hk hk hact

/-- Witness for C2 (amended): with one ACTIVE and one INACTIVE listed
key and a creation call that fails, only the INACTIVE key's deletion is
issued, one creation call is made, the creation error is surfaced, and
the ACTIVE key survives. -/
theorem selfHeal_on_create_failure_witness :
    (rotateKeys ⟨true, fun n => decide (n < 2), true, fun _ => true, 7⟩
        [⟨1, KeyStatus.inactive⟩, ⟨2, KeyStatus.active⟩]).issuedDeletes = [1]
    ∧ (rotateKeys ⟨true, fun n => decide (n < 2), true, fun _ => true, 7⟩
        [⟨1, KeyStatus.inactive⟩, ⟨2, KeyStatus.active⟩]).createCalls = 1
    ∧ (rotateKeys ⟨true, fun n => decide (n < 2), true, fun _ => true, 7⟩
        [⟨1, KeyStatus.inactive⟩, ⟨2, KeyStatus.active⟩]).result
        = Except.error RotErr.createErr
    ∧ (⟨2, KeyStatus.active⟩ : AccessKeyMetadata)
        ∈ (rotateKeys ⟨true, fun n => decide (n < 2), true, fun _ => true, 7⟩
            [⟨1, KeyStatus.inactive⟩, ⟨2, KeyStatus.active⟩]).finalKeys := by
  have h := selfHeal_on_create_failure ⟨true, fun n => decide (n < 2), true, fun _ => true, 7⟩
    [⟨1, KeyStatus.inactive⟩, ⟨2, KeyStatus.active⟩] rfl (by decide)
    (by unfold nodupIds; decide)
  exact ⟨by simpa using h.1, h.2.1, h.2.2.2.1 (by decide),
    h.2.2.2.2 ⟨2, KeyStatus.active⟩ (by decide) rfl⟩

/-- C3: with exactly two existing keys, one ACTIVE and one INACTIVE (in
either order), a service that rejects creation while two keys are held,
and a working deletion for the INACTIVE key, the run fails with the
creation error; the INACTIVE key is deleted, the ACTIVE key is retained
with unchanged status, and no newly created key exists (the single
creation call failed and the handler was never invoked). -/
theorem atCap_one_active_one_inactive (env : Env) (st : List AccessKeyMetadata)
    (a b : Nat) (hab : a ≠ b)
    (hst : st = [⟨a, KeyStatus.inactive⟩, ⟨b, KeyStatus.active⟩]
      ∨ st = [⟨b, KeyStatus.active⟩, ⟨a, KeyStatus.inactive⟩])
    (hl : env.listOk = true) (hcap2 : env.createOk 2 = false)
    (hda : env.deleteOk a = true) :
    (rotateKeys env st).result = Except.error RotErr.createErr
    ∧ (rotateKeys env st).finalKeys = [⟨b, KeyStatus.active⟩]
    ∧ (rotateKeys env st).createCalls = 1
    ∧ (rotateKeys env st).handlerCalls = 0 := by
  have hlen : st.length = 2 := by rcases hst with h | h <;> rw [h] <;> rfl
  have hcf : env.createOk st.length = false := by rw [hlen]; exact hcap2
  rw [rotateKeys_eq_of_create_failure env st hl hcf]
  have hia : (st.filter (fun k => k.status == KeyStatus.inactive))
      = [⟨a, KeyStatus.inactive⟩] := by
    rcases hst with h | h <;> rw [h] <;> rfl
  refine ⟨?_, ?_, selfHeal_createCalls env st _ 1 0 [] st,
    selfHeal_handlerCalls env st _ 1 0 [] st⟩
  · refine selfHeal_result_of_deletes_ok env st RotErr.createErr 1 0 [] st ?_
    rw [hia]
    intro k hk
    rw [List.mem_singleton] at hk
    rw [hk]
    exact hda
  · rw [selfHeal_finalKeys, deleteKeys_state_eq]
    have hsucc : succeededIds env
        (keysToDelete st (some (fun k => k.status == KeyStatus.inactive))) = [a] := by
      rw [keysToDelete, hia, succeededIds]
      simp [hda]
    rw [hsucc]
    rcases hst with h | h <;> rw [h] <;> simp [hab, Ne.symm hab]

/-- Witness for C3: the concrete instance of the repository's own test
(one INACTIVE then one ACTIVE key, creation rejected at two keys). -/
theorem atCap_one_active_one_inactive_witness :
    (rotateKeys ⟨true, fun n => decide (n < 2), true, fun _ => true, 7⟩
        [⟨1, KeyStatus.inactive⟩, ⟨2, KeyStatus.active⟩]).result
      = Except.error RotErr.createErr
    ∧ (rotateKeys ⟨true, fun n => decide (n < 2), true, fun _ => true, 7⟩
        [⟨1, KeyStatus.inactive⟩, ⟨2, KeyStatus.active⟩]).finalKeys
      = [⟨2, KeyStatus.active⟩] := by
  have h := atCap_one_active_one_inactive
    ⟨true, fun n => decide (n < 2), true, fun _ => true, 7⟩
    [⟨1, KeyStatus.inactive⟩, ⟨2, KeyStatus.active⟩] 1 2 (by decide)
    (Or.inl rfl) rfl (by decide) rfl
  exact ⟨h.1, h.2.1⟩

/-- C4 as written is false on this code: with one INACTIVE pre-existing
key and a handler that fails, the run deletes not only the new key but
also the listed INACTIVE key — the listed key set is not left
untouched. -/
theorem handler_failure_deletes_inactive_cex :
    (rotateKeys ⟨true, fun n => decide (n < 2), false, fun _ => true, 9⟩
        [⟨5, KeyStatus.inactive⟩]).result = Except.error RotErr.handlerErr
    ∧ (rotateKeys ⟨true, fun n => decide (n < 2), false, fun _ => true, 9⟩
        [⟨5, KeyStatus.inactive⟩]).finalKeys = []
    ∧ ¬((⟨5, KeyStatus.inactive⟩ : AccessKeyMetadata)
        ∈ (rotateKeys ⟨true, fun n => decide (n < 2), false, fun _ => true, 9⟩
            [⟨5, KeyStatus.inactive⟩]).finalKeys) := by decide

/-- C4 (amended): if key creation succeeded but the handler reports
failure (and deletions succeed), the run deletes the just-created key,
rejects with the handler's error, and leaves every listed ACTIVE key
untouched; the listed INACTIVE keys, however, are deleted by the
self-heal pass that this failure also triggers. -/
theorem handler_failure_rollback (env : Env) (st : List AccessKeyMetadata)
    (hl : env.listOk = true) (hc : env.createOk st.length = true)
    (hh : env.handlerOk = false) (hdel : ∀ i, env.deleteOk i = true)
    (hfresh : freshFor env st) (hnd : nodupIds st) :
    (rotateKeys env st).result = Except.error RotErr.handlerErr
    ∧ ¬((⟨env.newId, KeyStatus.active⟩ : AccessKeyMetadata)
        ∈ (rotateKeys env st).finalKeys)
    ∧ (rotateKeys env st).finalKeys
        = st.filter (fun k => k.status == KeyStatus.active) := by
  have hst2 : (st ++ [(⟨env.newId, KeyStatus.active⟩ : AccessKeyMetadata)]).filter
      (fun k => k.accessKeyId != env.newId) = st := by
    rw [List.filter_append]
    have h1 : st.filter (fun k => k.accessKeyId != env.newId) = st :=
      List.filter_eq_self.mpr (fun k hk => by simpa using hfresh k hk)
    have h2 : ([(⟨env.newId, KeyStatus.active⟩ : AccessKeyMetadata)]).filter
        (fun k => k.accessKeyId != env.newId) = [] := by simp
    rw [h1, h2, List.append_nil]
  rw [rotateKeys_eq_of_handler_failure env st hl hc hh (hdel env.newId), hst2]
  have hfin : (selfHeal env st RotErr.handlerErr 1 1 [env.newId] st).finalKeys
      = st.filter (fun k => k.status == KeyStatus.active) := by
    rw [selfHeal_finalKeys, deleteKeys_state_eq]
    refine List.filter_congr ?_
    intro k hk
    rcases hstat : k.status with _ | _
    · have : ¬(k.accessKeyId ∈ succeededIds env
          (keysToDelete st (some (fun k => k.status == KeyStatus.inactive)))) := by
        intro hmem
        rw [mem_succeededIds] at hmem
        rcases hmem.1 with ⟨k', hk', hideq⟩
        rw [keysToDelete, List.mem_filter] at hk'
        have : k' = k := List.inj_on_of_nodup_map hnd hk'.1 hk hideq
        rw [this, hstat] at hk'
        exact absurd hk'.2 (by simp)
      simp [this, hstat]
    · have : k.accessKeyId ∈ succeededIds env
          (keysToDelete st (some (fun k => k.status == KeyStatus.inactive))) := by
        rw [mem_succeededIds]
        exact ⟨⟨k, by rw [keysToDelete, List.mem_filter]; exact ⟨hk, by simp [hstat]⟩, rfl⟩,
          hdel k.accessKeyId⟩
      simp [this, hstat]
  refine ⟨?_, ?_, hfin⟩
  · refine selfHeal_result_of_deletes_ok env st RotErr.handlerErr 1 1 [env.newId] st ?_
    intro k _
    exact hdel k.accessKeyId
  · rw [hfin]
    intro hmem
    rw [List.mem_filter] at hmem
    exact hfresh ⟨env.newId, KeyStatus.active⟩ hmem.1 rfl

/-- Witness for C4 (amended): one ACTIVE and one INACTIVE listed key, a
failing handler: the handler error is surfaced, the new key is gone, and
exactly the ACTIVE listed key remains. -/
theorem handler_failure_rollback_witness :
    (rotateKeys ⟨true, fun n => decide (n < 3), false, fun _ => true, 9⟩
        [⟨1, KeyStatus.active⟩, ⟨2, KeyStatus.inactive⟩]).result
      = Except.error RotErr.handlerErr
    ∧ (rotateKeys ⟨true, fun n => decide (n < 3), false, fun _ => true, 9⟩
        [⟨1, KeyStatus.active⟩, ⟨2, KeyStatus.inactive⟩]).finalKeys
      = [⟨1, KeyStatus.active⟩] := by
  have h := handler_failure_rollback
    ⟨true, fun n => decide (n < 3), false, fun _ => true, 9⟩
    [⟨1, KeyStatus.active⟩, ⟨2, KeyStatus.inactive⟩] rfl (by decide) rfl
    (fun i => rfl) (by intro k hk; fin_cases hk <;> decide)
    (by unfold nodupIds; decide)
  exact ⟨h.1, by rw [h.2.2]; rfl⟩

/-- C7: when the creation call fails and a deletion performed during the
self-heal pass also fails, the run fails with that deletion error — not
with the creation error that triggered self-heal — and no further
creation call is made. -/
theorem selfHeal_deletion_error_surfaced (env : Env) (st : List AccessKeyMetadata)
    (hl : env.listOk = true) (hcf : env.createOk st.length = false)
    (hbad : ∃ k ∈ st, k.status = KeyStatus.inactive ∧ env.deleteOk k.accessKeyId = false) :
    (∃ i, (rotateKeys env st).result = Except.error (RotErr.deleteErr i)
        ∧ env.deleteOk i = false)
    ∧ (rotateKeys env st).result ≠ Except.error RotErr.createErr
    ∧ (rotateKeys env st).createCalls = 1 := by
  rw [rotateKeys_eq_of_create_failure env st hl hcf]
  have hbad' : ∃ k ∈ keysToDelete st (some (fun k => k.status == KeyStatus.inactive)),
      env.deleteOk k.accessKeyId = false := by
    rcases hbad with ⟨k, hk, hs, hd⟩
    exact ⟨k, by rw [keysToDelete, List.mem_filter]; exact ⟨hk, by simp [hs]⟩, hd⟩
  rcases deleteKeys_error_of_failed_delete env st
    (some (fun k => k.status == KeyStatus.inactive)) st hbad' with ⟨i, hres, hio⟩
  have hr := selfHeal_result_of_batch_error env st RotErr.createErr
    (RotErr.deleteErr i) 1 0 [] st hres
  refine ⟨⟨i, hr, hio⟩, ?_, selfHeal_createCalls env st _ 1 0 [] st⟩
  rw [hr]
  intro hcontra
  injection hcontra with h2
  exact RotErr.noConfusion h2

/-- Witness for C7: one INACTIVE key whose deletion fails, creation
failing as well — the surfaced error is the deletion error for key 1. -/
theorem selfHeal_deletion_error_surfaced_witness :
    (rotateKeys ⟨true, fun _ => false, true, fun i => i != 1, 7⟩
        [⟨1, KeyStatus.inactive⟩]).result = Except.error (RotErr.deleteErr 1)
    ∧ (rotateKeys ⟨true, fun _ => false, true, fun i => i != 1, 7⟩
        [⟨1, KeyStatus.inactive⟩]).createCalls = 1 := by
  have h := selfHeal_deletion_error_surfaced ⟨true, fun _ => false, true, fun i => i != 1, 7⟩
    [⟨1, KeyStatus.inactive⟩] rfl rfl ⟨⟨1, KeyStatus.inactive⟩, by decide, rfl, by decide⟩
  exact ⟨by decide, h.2.2⟩

/-- Once the handler has accepted the new key, the new key is a member of
the final key set on every path (the old-key batch never contains it,
and self-heal deletes only listed INACTIVE keys, whose ids differ). -/
theorem new_key_in_final_of_handler_ok (env : Env) (st : List AccessKeyMetadata)
    (hfresh : freshFor env st) (hl : env.listOk = true)
    (hc : env.createOk st.length = true) (hh : env.handlerOk = true) :
    (⟨env.newId, KeyStatus.active⟩ : AccessKeyMetadata)
      ∈ (rotateKeys env st).finalKeys := by
  have hmem1 : (⟨env.newId, KeyStatus.active⟩ : AccessKeyMetadata)
      ∈ (deleteKeys env st none
          (st ++ [(⟨env.newId, KeyStatus.active⟩ : AccessKeyMetadata)])).state := by
    rw [deleteKeys_mem_state]
    refine ⟨List.mem_append_right _ (List.mem_singleton_self _), ?_⟩
    intro hmem
    rw [mem_succeededIds] at hmem
    rcases hmem.1 with ⟨k', hk', hid⟩
    rw [keysToDelete] at hk'
    exact hfresh k' hk' hid
  rcases hres : (deleteKeys env st none
      (st ++ [(⟨env.newId, KeyStatus.active⟩ : AccessKeyMetadata)])).result with e | u
  · rw [rotateKeys_eq_of_batch_error env st e hl hc hh hres]
    refine selfHeal_preserves env st e 1 1 _ _ _ hmem1 ?_
    intro k' hk' _ heq
    exact hfresh k' hk' heq
  · rw [rotateKeys_eq_of_batch_ok env st hl hc hh (by rw [hres])]
    exact hmem1

/-- On every failing run (against a service enforcing the 2-key cap,
with distinct listed ids and a fresh new-key id), every listed ACTIVE key
is still present at the end of the run. -/
theorem active_listed_in_final_of_error (env : Env) (st : List AccessKeyMetadata)
    (hcap : capped env) (hfresh : freshFor env st) (hnd : nodupIds st)
    (k : AccessKeyMetadata) (hk : k ∈ st) (hact : k.status = KeyStatus.active)
    (herr : ¬((rotateKeys env st).result = Except.ok ())) :
    k ∈ (rotateKeys env st).finalKeys := by
  by_cases hl : env.listOk = true
  · by_cases hc : env.createOk st.length = true
    · have hlen1 : st.length ≤ 1 := by
        by_contra hgt
        rw [hcap st.length (by omega)] at hc
        exact Bool.noConfusion hc
      have hst1 : st = [k] := by
        rcases st with _ | ⟨x, _ | ⟨y, tl⟩⟩
        · exact absurd hk (by simp)
        · rw [List.mem_singleton] at hk
          rw [hk]
        · simp at hlen1
      by_cases hh : env.handlerOk = true
      · rcases hres : (deleteKeys env st none
            (st ++ [(⟨env.newId, KeyStatus.active⟩ : AccessKeyMetadata)])).result with e | u
        · have hdk : env.deleteOk k.accessKeyId = false := by
            by_contra hdk
            have : (deleteKeys env st none
                (st ++ [(⟨env.newId, KeyStatus.active⟩ : AccessKeyMetadata)])).result
                = Except.ok () := by
              refine (deleteKeys_result_ok_iff env st none _).mpr ?_
              intro k' hk'
              rw [keysToDelete, hst1, List.mem_singleton] at hk'
              rw [hk']
              simpa using hdk
            rw [hres] at this
            exact Except.noConfusion this
          have hmem1 : k ∈ (deleteKeys env st none
              (st ++ [(⟨env.newId, KeyStatus.active⟩ : AccessKeyMetadata)])).state := by
            rw [deleteKeys_mem_state]
            refine ⟨List.mem_append_left _ hk, ?_⟩
            intro hmem
            rw [mem_succeededIds] at hmem
            rw [hmem.2] at hdk
            exact Bool.noConfusion hdk
          rw [rotateKeys_eq_of_batch_error env st e hl hc hh hres]
          exact selfHeal_preserves_active env st e 1 1 _ _ hnd k hmem1 hk hact
        · exact absurd (by rw [rotateKeys_eq_of_batch_ok env st hl hc hh (by rw [hres])]) herr
      · by_cases hdn : env.deleteOk env.newId = true
        · rw [rotateKeys_eq_of_handler_failure env st hl hc
            (Bool.not_eq_true _ ▸ hh) hdn]
          refine selfHeal_preserves_active env st _ 1 1 _ _ hnd k ?_ hk hact
          rw [List.mem_filter]
          refine ⟨List.mem_append_left _ hk, ?_⟩
          simpa using hfresh k hk
        · rw [rotateKeys_eq_of_handler_failure_delete_failure env st hl hc
            (Bool.not_eq_true _ ▸ hh) (Bool.not_eq_true _ ▸ hdn)]
          exact selfHeal_preserves_active env st _ 1 1 _ _ hnd k
            (List.mem_append_left _ hk) hk hact
    · rw [rotateKeys_eq_of_create_failure env st hl (Bool.not_eq_true _ ▸ hc)]
      exact selfHeal_preserves_active env st _ 1 0 [] st hnd k hk hk hact
  · rw [rotateKeys_eq_of_list_failure env st (Bool.not_eq_true _ ▸ hl)]
    exact hk

theorem selfHeal_final_sublist (env : Env) (keys : List AccessKeyMetadata)
    (e : RotErr) (cc hc : Nat) (issued0 : List Nat) (st : List AccessKeyMetadata) :
    List.Sublist (selfHeal env keys e cc hc issued0 st).finalKeys st := by
  rw [selfHeal_finalKeys, deleteKeys_state_eq]
  exact List.filter_sublist st

/-- The final key set of any run is a sublist of the listed keys followed
by the (at most one) key created during the run. -/
theorem rotateKeys_final_sublist (env : Env) (st : List AccessKeyMetadata) :
    List.Sublist (rotateKeys env st).finalKeys
      (st ++ [(⟨env.newId, KeyStatus.active⟩ : AccessKeyMetadata)]) := by
  by_cases hl : env.listOk = true
  · by_cases hc : env.createOk st.length = true
    · by_cases hh : env.handlerOk = true
      · rcases hres : (deleteKeys env st none
            (st ++ [(⟨env.newId, KeyStatus.active⟩ : AccessKeyMetadata)])).result with e | u
        · rw [rotateKeys_eq_of_batch_error env st e hl hc hh hres]
          exact (selfHeal_final_sublist env st e 1 1 _ _).trans
            (by rw [deleteKeys_state_eq]; exact List.filter_sublist _)
        · rw [rotateKeys_eq_of_batch_ok env st hl hc hh (by rw [hres])]
          rw [deleteKeys_state_eq]
          exact List.filter_sublist _
      · by_cases hdn : env.deleteOk env.newId = true
        · rw [rotateKeys_eq_of_handler_failure env st hl hc (Bool.not_eq_true _ ▸ hh) hdn]
          exact (selfHeal_final_sublist env st _ 1 1 _ _).trans (List.filter_sublist _)
        · rw [rotateKeys_eq_of_handler_failure_delete_failure env st hl hc
            (Bool.not_eq_true _ ▸ hh) (Bool.not_eq_true _ ▸ hdn)]
          exact selfHeal_final_sublist env st _ 1 1 _ _
    · rw [rotateKeys_eq_of_create_failure env st hl (Bool.not_eq_true _ ▸ hc)]
      exact (selfHeal_final_sublist env st _ 1 0 [] st).trans
        (List.sublist_append_left st _)
  · rw [rotateKeys_eq_of_list_failure env st (Bool.not_eq_true _ ▸ hl)]
    exact List.sublist_append_left st _

/-- When no key is created (the creation call fails), the final key set
is a sublist of the listed keys alone. -/
theorem rotateKeys_final_sublist_start (env : Env) (st : List AccessKeyMetadata)
    (hcf : env.createOk st.length = false) :
    List.Sublist (rotateKeys env st).finalKeys st := by
  by_cases hl : env.listOk = true
  · rw [rotateKeys_eq_of_create_failure env st hl hcf]
    exact selfHeal_final_sublist env st _ 1 0 [] st
  · rw [rotateKeys_eq_of_list_failure env st (Bool.not_eq_true _ ▸ hl)]

/-- C8 (amended): against a service enforcing the 2-key cap, a run from
any key set of at most two distinctly-identified keys ends with at most
two keys, again distinctly identified (so the bound is preserved across
any sequence of runs), and ends with at least one key whenever at least
one listed key was ACTIVE. -/
theorem rotation_invariants (env : Env) (st : List AccessKeyMetadata)
    (hcap : capped env) (hlen : st.length ≤ 2)
    (hfresh : freshFor env st) (hnd : nodupIds st) :
    (rotateKeys env st).finalKeys.length ≤ 2
    ∧ nodupIds (rotateKeys env st).finalKeys
    ∧ ((∃ k ∈ st, k.status = KeyStatus.active)
        → (rotateKeys env st).finalKeys ≠ []) := by
  refine ⟨?_, ?_, ?_⟩
  · by_cases hc : env.createOk st.length = true
    · have hlen1 : st.length ≤ 1 := by
        by_contra hgt
        rw [hcap st.length (by omega)] at hc
        exact Bool.noConfusion hc
      have h := (rotateKeys_final_sublist env st).length_le
      simp only [List.length_append, List.length_singleton] at h
      omega
    · have h := (rotateKeys_final_sublist_start env st
        (Bool.not_eq_true _ ▸ hc)).length_le
      omega
  · have hnd1 : ((st ++ [(⟨env.newId, KeyStatus.active⟩ : AccessKeyMetadata)]).map
        (fun k => k.accessKeyId)).Nodup := by
      rw [List.map_append]
      rw [List.nodup_append]
      refine ⟨hnd, by simp, ?_⟩
      intro i hi hital
      simp only [List.map_cons, List.map_nil, List.mem_singleton] at hital
      rw [List.mem_map] at hi
      rcases hi with ⟨k', hk', hid⟩
      exact hfresh k' hk' (hital ▸ hid)
    exact List.Nodup.sublist ((rotateKeys_final_sublist env st).map _) hnd1
  · rintro ⟨k, hk, hact⟩
    by_cases hok : (rotateKeys env st).result = Except.ok ()
    · rw [rotateKeys_ok_finalKeys env st hfresh hok]
      simp
    · exact List.ne_nil_of_mem
        (active_listed_in_final_of_error env st hcap hfresh hnd k hk hact hok)

/-- C8 as written is false on this code: an identity holding exactly one
(INACTIVE) key, rotated against the capped mock service with a failing
handler, ends the run with zero keys. -/
theorem rotation_zero_keys_cex :
    (rotateKeys ⟨true, fun n => decide (n < 2), false, fun _ => true, 3⟩
        [⟨2, KeyStatus.inactive⟩]).finalKeys = []
    ∧ ([(⟨2, KeyStatus.inactive⟩ : AccessKeyMetadata)]).length = 1
    ∧ ((⟨true, fun n => decide (n < 2), false, fun _ => true, 3⟩ : Env).createOk 2 = false
        ∧ (⟨true, fun n => decide (n < 2), false, fun _ => true, 3⟩ : Env).createOk 3
            = false) := by decide

/-- Witness for C8 (amended): one ACTIVE key against the capped mock
service with a failing handler: the run ends with at most two,
distinctly-identified keys and not with zero keys. -/
theorem rotation_invariants_witness :
    (rotateKeys ⟨true, fun n => decide (n < 2), false, fun _ => true, 3⟩
        [⟨2, KeyStatus.active⟩]).finalKeys.length ≤ 2
    ∧ (rotateKeys ⟨true, fun n => decide (n < 2), false, fun _ => true, 3⟩
        [⟨2, KeyStatus.active⟩]).finalKeys ≠ [] := by
  have h := rotation_invariants ⟨true, fun n => decide (n < 2), false, fun _ => true, 3⟩
    [⟨2, KeyStatus.active⟩] (by intro n hn; simp; omega) (by decide)
    (by intro k hk; fin_cases hk; decide) (by unfold nodupIds; decide)
  exact ⟨h.1, h.2.2 ⟨⟨2, KeyStatus.active⟩, by decide, rfl⟩⟩

/-- C9: against a service enforcing the 2-key cap (distinct listed ids,
fresh new-key id), a listed ACTIVE key is gone at the end of a run
exactly when the run succeeded — so on every failure path the deleted
pre-existing keys are all INACTIVE, and an ACTIVE key is removed only on
the success path, after the handler accepted the new key. -/
theorem active_deleted_only_on_success (env : Env) (st : List AccessKeyMetadata)
    (hcap : capped env) (hfresh : freshFor env st) (hnd : nodupIds st) :
    ∀ k ∈ st, k.status = KeyStatus.active →
      (¬(k ∈ (rotateKeys env st).finalKeys)
        ↔ (rotateKeys env st).result = Except.ok ()) := by
  intro k hk hact
  constructor
  · intro hnmem
    by_contra hne
    exact hnmem (active_listed_in_final_of_error env st hcap hfresh hnd k hk hact hne)
  · intro hok hmem
    rw [rotateKeys_ok_finalKeys env st hfresh hok, List.mem_singleton] at hmem
    exact hfresh k hk (congrArg AccessKeyMetadata.accessKeyId hmem)

/-- Witness for C9: a successful rotation deletes the listed ACTIVE key,
and a failing rotation (deletion of the old key failing) retains it. -/
theorem active_deleted_only_on_success_witness :
    ¬((⟨1, KeyStatus.active⟩ : AccessKeyMetadata)
        ∈ (rotateKeys ⟨true, fun n => decide (n < 2), true, fun _ => true, 7⟩
            [⟨1, KeyStatus.active⟩]).finalKeys)
    ∧ (⟨1, KeyStatus.active⟩ : AccessKeyMetadata)
        ∈ (rotateKeys ⟨true, fun n => decide (n < 2), true, fun i => i != 1, 7⟩
            [⟨1, KeyStatus.active⟩]).finalKeys := by
  have h1 := active_deleted_only_on_success
    ⟨true, fun n => decide (n < 2), true, fun _ => true, 7⟩ [⟨1, KeyStatus.active⟩]
    (by intro n hn; simp; omega) (by intro k hk; fin_cases hk; decide)
    (by unfold nodupIds; decide) ⟨1, KeyStatus.active⟩ (by decide) rfl
  have h2 := active_deleted_only_on_success
    ⟨true, fun n => decide (n < 2), true, fun i => i != 1, 7⟩ [⟨1, KeyStatus.active⟩]
    (by intro n hn; simp; omega) (by intro k hk; fin_cases hk; decide)
    (by unfold nodupIds; decide) ⟨1, KeyStatus.active⟩ (by decide) rfl
  constructor
  · exact h1.mpr (by decide)
  · by_contra hnmem
    have := h2.mp hnmem
    rw [show (rotateKeys ⟨true, fun n => decide (n < 2), true, fun i => i != 1, 7⟩
        [⟨1, KeyStatus.active⟩]).result = Except.error (RotErr.deleteErr 1) from by decide]
      at this
    exact Except.noConfusion this

/-- C10: once the handler has accepted the new key, the run never deletes
it — on every such run the new ACTIVE key is in the final key set even if
the run fails — and concretely, when the final old-key deletion fails,
the run rejects with that deletion error while both the old ACTIVE key
and the new ACTIVE key remain (two ACTIVE keys). -/
theorem new_key_retained_after_acceptance (env : Env) (st : List AccessKeyMetadata)
    (hfresh : freshFor env st) (hl : env.listOk = true)
    (hc : env.createOk st.length = true) (hh : env.handlerOk = true) :
    (⟨env.newId, KeyStatus.active⟩ : AccessKeyMetadata) ∈ (rotateKeys env st).finalKeys
    ∧ ((rotateKeys ⟨true, fun n => decide (n < 2), true, fun i => i != 1, 2⟩
          [⟨1, KeyStatus.active⟩]).result = Except.error (RotErr.deleteErr 1)
        ∧ (rotateKeys ⟨true, fun n => decide (n < 2), true, fun i => i != 1, 2⟩
            [⟨1, KeyStatus.active⟩]).finalKeys
          = [⟨1, KeyStatus.active⟩, ⟨2, KeyStatus.active⟩]) := by
  exact ⟨new_key_in_final_of_handler_ok env st hfresh hl hc hh, by decide, by decide⟩

/-- Witness for C10: the new key (id 9) survives a run whose final
old-key deletion fails. -/
theorem new_key_retained_after_acceptance_witness :
    (⟨9, KeyStatus.active⟩ : AccessKeyMetadata)
      ∈ (rotateKeys ⟨true, fun n => decide (n < 2), true, fun i => i != 5, 9⟩
          [⟨5, KeyStatus.active⟩]).finalKeys :=
  (new_key_retained_after_acceptance
    ⟨true, fun n => decide (n < 2), true, fun i => i != 5, 9⟩
    [⟨5, KeyStatus.active⟩] (by intro k hk; fin_cases hk; decide) rfl (by decide) rfl).1

end AwsKeyRotator
